import Mathlib

/-!
# Verification of the k8s-lite-go control plane core

Shallow embedding of the k8s-lite-go repository: the API object types
(`pkg/api/types.go`), the in-memory store (`pkg/store/memory.go`), the
API-server request handlers (`cmd/apiserver/main.go`, the later revision that
serves PUT updates), the client-side list filters (`pkg/api/client.go`), the
scheduler loop body (`cmd/scheduler/main.go`), and the kubelet (node agent)
registration and sync loop (`cmd/kubelet/main.go`, the later revision that
handles `DeletionTimestamp`).

Go maps keyed by strings are embedded as association lists in insertion
order; `PodPhase` and `NodeStatus` are Go string types and are embedded as
`String` with the source's named constants; `time.Time` pointers are embedded
as `Option Nat` (only presence is ever inspected by the code).
-/

namespace K8sLite

/-! ## pkg/api/types.go -/

/-- NodeStatus constant `NodeReady = "Ready"`. -/
def NodeReady : String := "Ready"

/-- NodeStatus constant `NodeNotReady = "NotReady"`. -/
def NodeNotReady : String := "NotReady"

/-- Node represents a worker machine in the cluster. -/
structure Node where
  name : String
  address : String
  status : String
deriving DecidableEq, Repr

/-- PodPhase constant `PodPending = "Pending"`. -/
def PodPending : String := "Pending"

/-- PodPhase constant `PodScheduled = "Scheduled"`. -/
def PodScheduled : String := "Scheduled"

/-- PodPhase constant `PodRunning = "Running"`. -/
def PodRunning : String := "Running"

/-- PodPhase constant `PodDeleted = "Deleted"`. -/
def PodDeleted : String := "Deleted"

/-- PodPhase constant `PodSucceeded = "Succeeded"`. -/
def PodSucceeded : String := "Succeeded"

/-- PodPhase constant `PodFailed = "Failed"`. -/
def PodFailed : String := "Failed"

/-- PodPhase constant `PodDeleting = "Deleting"`. -/
def PodDeleting : String := "Deleting"

/-- PodPhase constant `PodTerminating = "Terminating"`. -/
def PodTerminating : String := "Terminating"

/-- Pod, mirroring the `Pod` struct of `pkg/api/types.go` field by field.
`DeletionTimestamp *time.Time` becomes `Option Nat` (the code only ever
tests it against nil). -/
structure Pod where
  name : String
  namespace' : String
  image : String
  nodeName : String
  phase : String
  hostIP : String
  podIP : String
  deletionTimestamp : Option Nat
deriving DecidableEq, Repr

/-- The `"namespace/name"` identity of a pod (the store's map key). -/
def podKey (p : Pod) : String × String := (p.namespace', p.name)

/-! ## pkg/store/memory.go — InMemoryStore

The two Go maps are embedded as association lists in insertion order
(`CreatePod`/`CreateNode` append, updates replace in place, deletes remove).
-/

structure InMemoryStore where
  pods : List Pod
  nodes : List Node
deriving DecidableEq, Repr

/-- Store-level errors: `already exists` on create collision, `not found`
on a missing update/get/delete target (memory.go returns `fmt.Errorf`
values with exactly these two meanings). -/
inductive StoreError where
  | alreadyExists
  | notFound
deriving DecidableEq, Repr

/-- `InMemoryStore.GetPod`. -/
def getPod (s : InMemoryStore) (ns name : String) : Option Pod :=
  s.pods.find? (fun p => p.namespace' == ns && p.name == name)

/-- `InMemoryStore.CreatePod`: error if the key exists, else insert. -/
def createPod (s : InMemoryStore) (pod : Pod) : Except StoreError InMemoryStore :=
  match getPod s pod.namespace' pod.name with
  | some _ => .error .alreadyExists
  | none => .ok { s with pods := s.pods ++ [pod] }

/-- `InMemoryStore.UpdatePod`: error if the key is absent, else replace the
stored pod with the argument (no version check of any kind exists in the
source). -/
def updatePod (s : InMemoryStore) (pod : Pod) : Except StoreError InMemoryStore :=
  match getPod s pod.namespace' pod.name with
  | none => .error .notFound
  | some _ =>
      .ok { s with pods :=
              s.pods.map (fun q =>
                if q.namespace' == pod.namespace' && q.name == pod.name then pod else q) }

/-- `InMemoryStore.DeletePod`: error if absent, else `delete(s.pods, key)` —
the record is removed outright. -/
def deletePod (s : InMemoryStore) (ns name : String) : Except StoreError InMemoryStore :=
  match getPod s ns name with
  | none => .error .notFound
  | some _ =>
      .ok { s with pods := s.pods.filter (fun q => !(q.namespace' == ns && q.name == name)) }

/-- `InMemoryStore.ListPods`: all pods of the namespace. -/
def listPods (s : InMemoryStore) (ns : String) : List Pod :=
  s.pods.filter (fun p => p.namespace' == ns)

/-- `InMemoryStore.GetNode`. -/
def getNode (s : InMemoryStore) (name : String) : Option Node :=
  s.nodes.find? (fun n => n.name == name)

/-- `InMemoryStore.CreateNode`. -/
def createNode (s : InMemoryStore) (node : Node) : Except StoreError InMemoryStore :=
  match getNode s node.name with
  | some _ => .error .alreadyExists
  | none => .ok { s with nodes := s.nodes ++ [node] }

/-- `InMemoryStore.UpdateNode`. -/
def updateNode (s : InMemoryStore) (node : Node) : Except StoreError InMemoryStore :=
  match getNode s node.name with
  | none => .error .notFound
  | some _ =>
      .ok { s with nodes := s.nodes.map (fun m => if m.name == node.name then node else m) }

/-- `InMemoryStore.ListNodes`. -/
def listNodes (s : InMemoryStore) : List Node :=
  s.nodes

/-! ## cmd/apiserver/main.go — Gin handlers (later revision, with PUT routes)

HTTP status codes are embedded as an error type: 400 → `badRequest`,
404 → `notFound`, 500 → `serverError` (the handlers wrap every store error
of a create/update/delete as a 500).
-/

inductive ApiError where
  | badRequest
  | notFound
  | serverError
deriving DecidableEq, Repr

/-- `createPodHandlerGin`: validates the name, forces the namespace from the
URL (defaulting empty to "default"), forces `Phase = Pending` and
`NodeName = ""`, then `store.CreatePod`. -/
def createPodHandler (s : InMemoryStore) (urlNamespace : String) (body : Pod) :
    Except ApiError (InMemoryStore × Pod) :=
  if body.name == "" then .error .badRequest
  else
    let pod := { body with namespace' := urlNamespace }
    let pod := if pod.namespace' == "" then { pod with namespace' := "default" } else pod
    let pod := { pod with phase := PodPending, nodeName := "" }
    match createPod s pod with
    | .error _ => .error .serverError
    | .ok s' => .ok (s', pod)

/-- `updatePodHandlerGin`: rejects a body whose name or namespace differs
from the URL, 404s if the pod is absent, then `store.UpdatePod` with the
body as given — no other field of the body is validated. -/
def updatePodHandler (s : InMemoryStore) (urlNamespace urlName : String) (body : Pod) :
    Except ApiError (InMemoryStore × Pod) :=
  if body.name != urlName then .error .badRequest
  else if body.namespace' != urlNamespace then .error .badRequest
  else
    match getPod s urlNamespace urlName with
    | none => .error .notFound
    | some _ =>
        match updatePod s body with
        | .error _ => .error .serverError
        | .ok s' => .ok (s', body)

/-- `deletePodHandlerGin`: directly `store.DeletePod` — the record is
removed; nothing sets a deletionTimestamp anywhere in the handler. -/
def deletePodHandler (s : InMemoryStore) (urlNamespace urlName : String) :
    Except ApiError InMemoryStore :=
  match deletePod s urlNamespace urlName with
  | .error _ => .error .serverError
  | .ok s' => .ok s'

/-- `createNodeHandlerGin`: validates the name, defaults empty status to
Ready, then `store.CreateNode`. -/
def createNodeHandler (s : InMemoryStore) (body : Node) :
    Except ApiError (InMemoryStore × Node) :=
  if body.name == "" then .error .badRequest
  else
    let node := if body.status == "" then { body with status := NodeReady } else body
    match createNode s node with
    | .error _ => .error .serverError
    | .ok s' => .ok (s', node)

/-- `updateNodeHandlerGin`: rejects a non-empty body name that differs from
the URL, forces the name from the URL, 404s if absent, then
`store.UpdateNode`. -/
def updateNodeHandler (s : InMemoryStore) (urlName : String) (body : Node) :
    Except ApiError (InMemoryStore × Node) :=
  if body.name != "" && body.name != urlName then .error .badRequest
  else
    let node := { body with name := urlName }
    match getNode s urlName with
    | none => .error .notFound
    | some _ =>
        match updateNode s node with
        | .error _ => .error .serverError
        | .ok s' => .ok (s', node)

/-! ## pkg/api/client.go — client-side list filters

`Client.ListPods(ns, phase)` fetches all pods of the namespace and filters by
phase client-side unless the phase argument is the empty string;
`Client.ListNodes(status)` does the same for node status.
-/

/-- The phase filter of `Client.ListPods`. -/
def filterPodsByPhase (phase : String) (allPods : List Pod) : List Pod :=
  if phase == "" then allPods
  else allPods.filter (fun p => p.phase == phase)

/-- The status filter of `Client.ListNodes`. -/
def filterNodesByStatus (status : String) (allNodes : List Node) : List Node :=
  if status == "" then allNodes
  else allNodes.filter (fun n => n.status == status)

/-- `Client.ListPods` against the store (transport elided). -/
def clientListPods (s : InMemoryStore) (ns phase : String) : List Pod :=
  filterPodsByPhase phase (listPods s ns)

/-- `Client.ListNodes` against the store (transport elided). -/
def clientListNodes (s : InMemoryStore) (status : String) : List Node :=
  filterNodesByStatus status (listNodes s)

/-! ## cmd/scheduler/main.go — schedulePods

The loop body of `schedulePods` after the two list calls. `nextNodeIndex` is
the package-global round-robin cursor, threaded explicitly; the returned
list is the sequence of `UpdatePod` requests the cycle issues, in order. -/

/-- Spare node used as the (never reached) default of a guarded index. -/
def defaultNode : Node := ⟨"", "", ""⟩

/-- The `for _, pod := range pendingPods` loop of `schedulePods`: skip a pod
whose `DeletionTimestamp` is non-nil, defensively skip when no ready node is
left, otherwise select `readyNodes[nextNodeIndex%len(readyNodes)]`, advance
the cursor and issue the write with `NodeName` set and `Phase = Scheduled`. -/
def scheduleLoop : List Pod → List Node → Nat → List Pod × Nat
  | [], _, idx => ([], idx)
  | pod :: rest, readyNodes, idx =>
    if pod.deletionTimestamp.isSome then
      scheduleLoop rest readyNodes idx
    else if readyNodes.length == 0 then
      scheduleLoop rest readyNodes idx
    else
      let selectedNode := readyNodes.getD (idx % readyNodes.length) defaultNode
      let podToUpdate := { pod with nodeName := selectedNode.name, phase := PodScheduled }
      let r := scheduleLoop rest readyNodes (idx + 1)
      (podToUpdate :: r.1, r.2)

/-- `schedulePods` given the two fetched lists: no-op when either list is
empty, else run the assignment loop. -/
def schedulePods (pendingPods : List Pod) (readyNodes : List Node) (idx : Nat) :
    List Pod × Nat :=
  if pendingPods.isEmpty then ([], idx)
  else if readyNodes.isEmpty then ([], idx)
  else scheduleLoop pendingPods readyNodes idx

/-- One full scheduler cycle over the observed object lists: `ListPods`
filters to phase Pending client-side, `ListNodes` filters to status Ready,
then `schedulePods` assigns. `allPods` is the server's pod list for the
target namespace, `allNodes` the server's node list, in the order the
server returned them (a Go map snapshot, so no particular order). -/
def schedulerCycle (allPods : List Pod) (allNodes : List Node) (idx : Nat) :
    List Pod × Nat :=
  schedulePods (filterPodsByPhase PodPending allPods)
    (filterNodesByStatus NodeReady allNodes) idx

/-! ## cmd/kubelet/main.go — the node agent (later revision)

The later `syncPods` revision: for each pod of the agent's node, pods with a
set `DeletionTimestamp` are handled first (transition to Deleted unless the
phase is already Succeeded/Failed/Deleted) and then `continue` skips the
legacy phase switch; otherwise the switch fires on Scheduled, Running,
Terminating and the legacy Deleting tag. -/

/-- The per-pod body of the kubelet's `syncPods` loop; `some w` is the
`UpdatePod` request issued for the pod, `none` means no write. -/
def syncPod (agentNode : String) (pod : Pod) : Option Pod :=
  if pod.nodeName == agentNode then
    if pod.deletionTimestamp.isSome then
      if pod.phase != PodSucceeded && pod.phase != PodFailed && pod.phase != PodDeleted then
        some { pod with phase := PodDeleted }
      else
        none
    else if pod.phase == PodScheduled then
      some { pod with phase := PodRunning }
    else if pod.phase == PodRunning then
      none
    else if pod.phase == PodTerminating then
      if pod.phase != PodSucceeded && pod.phase != PodFailed && pod.phase != PodDeleted then
        some { pod with phase := PodDeleted }
      else
        none
    else if pod.phase == PodDeleting then
      if pod.phase != PodSucceeded && pod.phase != PodFailed then
        some { pod with phase := PodSucceeded }
      else
        none
    else
      none
  else
    none

/-- One kubelet sync cycle over the observed pod list (the kubelet lists all
pods of the default namespace with no phase filter): the sequence of
`UpdatePod` requests issued, in order. -/
def kubeletSync (agentNode : String) (pods : List Pod) : List Pod :=
  pods.filterMap (syncPod agentNode)

/-- The kubelet's `registerNode`: build its Node record with status Ready,
POST it via `CreateNode`; if that fails for any reason, fall back to a PUT
via `UpdateNode` of the same record (the client first rejects an empty
name). Returns the resulting store. -/
def registerNode (s : InMemoryStore) (nodeName nodeAddress : String) :
    Except ApiError InMemoryStore :=
  let node : Node := ⟨nodeName, nodeAddress, NodeReady⟩
  match createNodeHandler s node with
  | .ok (s', _) => .ok s'
  | .error _ =>
      if node.name == "" then .error .badRequest
      else
        match updateNodeHandler s node.name node with
        | .ok (s', _) => .ok s'
        | .error e => .error e

/-! ## Shared predicates -/

/-- The terminal pod phases: `Deleted`, `Succeeded`, `Failed` (spec §4.2;
exactly the set the kubelet's termination guard tests). -/
def isTerminal (phase : String) : Prop :=
  phase = PodDeleted ∨ phase = PodSucceeded ∨ phase = PodFailed

instance (phase : String) : Decidable (isTerminal phase) := by
  unfold isTerminal
  infer_instance

/-! ## Spec-side comparison definitions

These follow the wording of spec sentences (not the source) and exist only to
be compared against the embedded code: the spec's name-ordered round-robin
assignment discipline, and the per-cycle position sequence of a round-robin
cursor. -/

/-- Lexicographic order on character lists (byte order), for the spec's
"stable key (name)" ordering. -/
def strLeB : List Char → List Char → Bool
  | [], _ => true
  | _ :: _, [] => false
  | c :: cs, d :: ds =>
    if c.toNat < d.toNat then true
    else if d.toNat < c.toNat then false
    else strLeB cs ds

/-- Insert a node into a name-sorted node list. -/
def insertByName (n : Node) : List Node → List Node
  | [] => [n]
  | m :: ms => if strLeB n.name.data m.name.data then n :: m :: ms else m :: insertByName n ms

/-- Modelled from the spec: "the Ready-node list ordered by a stable key
(name)" — insertion sort of a node list by name. -/
def sortByName : List Node → List Node
  | [] => []
  | n :: ns => insertByName n (sortByName ns)

/-- Modelled from the spec: the node names a round-robin cursor starting at
`idx` picks for `k` consecutive assignments over the node list `ready` —
positions `idx, idx+1, …, idx+k-1`, each taken modulo the list length. -/
def rrAssign (ready : List Node) : Nat → Nat → List String
  | _, 0 => []
  | idx, k + 1 =>
    (ready.getD (idx % ready.length) defaultNode).name :: rrAssign ready (idx + 1) k

/-- The number of pods of a list that the scheduler loop does not skip
(deletionTimestamp still nil). -/
def countEligible (pods : List Pod) : Nat :=
  (pods.filter (fun p => p.deletionTimestamp.isNone)).length

/-- Modelled from the spec: the scheduler "assign[s] each eligible Pod to a
Node using round-robin over the Ready-node list ordered by a stable key
(name), advancing a persistent cursor across cycles" — in a cycle with
pending pods and ready nodes, the sequence of assigned node names follows
consecutive cursor positions over the name-ordered ready list. -/
def nameOrderedRoundRobinClaim : Prop :=
  ∀ (pendingPods : List Pod) (readyNodes : List Node) (idx : Nat),
    pendingPods ≠ [] → readyNodes ≠ [] →
    (schedulePods pendingPods readyNodes idx).1.map Pod.nodeName
      = rrAssign (sortByName readyNodes) idx (countEligible pendingPods)

/-- The claim that the scheduler assigns nodes only to pods satisfying the
spec's full eligibility invariant (phase Pending, nodeName empty,
deletionTimestamp null): every write a cycle issues originates in such a
pod. -/
def schedulerEligibilityClaim : Prop :=
  ∀ (allPods : List Pod) (allNodes : List Node) (idx : Nat) (w : Pod),
    w ∈ (schedulerCycle allPods allNodes idx).1 →
    ∃ q, q ∈ allPods ∧ podKey q = podKey w ∧
      q.phase = PodPending ∧ q.nodeName = "" ∧ q.deletionTimestamp = none

/-- The claim that a second store update of the same pod, issued from the
same observed state as a first successful update (same expected version in
the spec's terms), is always rejected. -/
def optimisticConcurrencyClaim : Prop :=
  ∀ (s s1 : InMemoryStore) (u1 u2 : Pod),
    u1.namespace' = u2.namespace' → u1.name = u2.name →
    updatePod s u1 = .ok s1 → ∀ s2, updatePod s1 u2 ≠ .ok s2

/-- The claim that an update changing a non-empty `nodeName` to a different
value is rejected by the pod-update path. -/
def noRebindingClaim : Prop :=
  ∀ (s : InMemoryStore) (stored body : Pod),
    getPod s body.namespace' body.name = some stored →
    stored.nodeName ≠ "" → body.nodeName ≠ stored.nodeName →
    ∀ r, updatePodHandler s body.namespace' body.name body ≠ .ok r

/-! ## Concrete fixtures

Concrete objects used to instantiate the theorems and to exhibit
counterexamples. Each is a state reachable through the embedded API: pods
are created Pending with empty nodeName by `createPodHandler`, and every
other field combination below is producible by a client PUT through
`updatePodHandler`, which validates only the name/namespace identity. -/

/-- A freshly created pod, as `createPodHandler` stores it. -/
def updTestPod : Pod := ⟨"p", "default", "img", "", PodPending, "", "", none⟩

/-- First of two competing update payloads for `updTestPod`. -/
def updA : Pod := { updTestPod with image := "a" }

/-- Second of two competing update payloads for `updTestPod`. -/
def updB : Pod := { updTestPod with image := "b" }

/-- A Pending pod that already carries a non-empty nodeName (producible by a
client PUT with phase Pending and a node name). -/
def rebPod : Pod := ⟨"p1", "default", "img", "node-z", PodPending, "", "", none⟩

/-- A Ready node. -/
def rNodeA : Node := ⟨"node-a", "addr", NodeReady⟩

/-- A non-terminal pod on node n1 marked for deletion. -/
def termPod : Pod := ⟨"tp", "default", "img", "n1", PodRunning, "", "", some 1⟩

/-- A pod on node n1 in the Terminating phase and marked for deletion. -/
def termPod2 : Pod := ⟨"tq", "default", "img", "n1", PodTerminating, "", "", some 3⟩

/-- A pod bound to node1. -/
def bndPod : Pod := ⟨"p", "default", "img", "node1", PodRunning, "", "", none⟩

/-- An update payload that moves `bndPod` to a different node. -/
def bndBody : Pod := { bndPod with nodeName := "node2" }

/-- A pod in the terminal Succeeded phase on node n1. -/
def donePod : Pod := ⟨"dp", "default", "img", "n1", PodSucceeded, "", "", none⟩

/-- An eligible pending pod for the round-robin cycle. -/
def rrPod : Pod := ⟨"rp", "default", "img", "", PodPending, "", "", none⟩

/-- Ready node named "a". -/
def rrNodeA : Node := ⟨"a", "addr-a", NodeReady⟩

/-- Ready node named "b". -/
def rrNodeB : Node := ⟨"b", "addr-b", NodeReady⟩

/-- A pending pod about to be deleted through the API. -/
def delPod : Pod := ⟨"mypod", "default", "img", "", PodPending, "", "", none⟩

/-! ## Helper lemmas about the store -/

lemma getPod_isSome_of_updatePod_ok {s s' : InMemoryStore} {p : Pod}
    (h : updatePod s p = .ok s') :
    (getPod s p.namespace' p.name).isSome := by
  unfold updatePod at h
  cases hg : getPod s p.namespace' p.name with
  | none => rw [hg] at h; cases h
  | some q => simp

lemma find?_map_replace (l : List Pod) (p : Pod)
    (h : (l.find? (fun q => q.namespace' == p.namespace' && q.name == p.name)).isSome) :
    ((l.map (fun q =>
        if q.namespace' == p.namespace' && q.name == p.name then p else q)).find?
      (fun q => q.namespace' == p.namespace' && q.name == p.name)) = some p := by
  induction l with
  | nil => simp at h
  | cons a l ih =>
    cases hc : (a.namespace' == p.namespace' && a.name == p.name) with
    | true =>
      have hp : (p.namespace' == p.namespace' && p.name == p.name) = true := by simp
      simp [List.find?, hc, hp]
    | false =>
      have ha : (if a.namespace' == p.namespace' && a.name == p.name then p else a) = a := by
        simp [hc]
      simp only [List.map_cons, ha]
      simp only [List.find?, hc] at h ⊢
      exact ih h

lemma updatePod_ok_pods {s s' : InMemoryStore} {p : Pod}
    (h : updatePod s p = .ok s') :
    s'.pods = s.pods.map (fun q =>
      if q.namespace' == p.namespace' && q.name == p.name then p else q) := by
  unfold updatePod at h
  cases hg : getPod s p.namespace' p.name with
  | none => rw [hg] at h; cases h
  | some q =>
    rw [hg] at h
    simp only [Except.ok.injEq] at h
    rw [← h]

lemma updatePod_ok_getPod {s s' : InMemoryStore} {p : Pod}
    (h : updatePod s p = .ok s') :
    getPod s' p.namespace' p.name = some p := by
  have hs : (s.pods.find? (fun q => q.namespace' == p.namespace' && q.name == p.name)).isSome :=
    getPod_isSome_of_updatePod_ok h
  unfold getPod
  rw [updatePod_ok_pods h]
  exact find?_map_replace s.pods p hs

/-! ## Helper lemmas about the scheduler loop -/

lemma countEligible_cons_skip {pod : Pod} {rest : List Pod}
    (hd : pod.deletionTimestamp.isSome = true) :
    countEligible (pod :: rest) = countEligible rest := by
  unfold countEligible
  cases hval : pod.deletionTimestamp with
  | none => rw [hval] at hd; simp at hd
  | some t => simp [List.filter_cons, hval]

lemma countEligible_cons_keep {pod : Pod} {rest : List Pod}
    (hd : ¬ pod.deletionTimestamp.isSome = true) :
    countEligible (pod :: rest) = countEligible rest + 1 := by
  unfold countEligible
  cases hval : pod.deletionTimestamp with
  | none => simp [List.filter_cons, hval]
  | some t => rw [hval] at hd; simp at hd

/-- The assignments of one pass of the loop are exactly the consecutive
cursor positions over the received ready-node list, and the cursor advances
once per non-skipped pod. -/
lemma scheduleLoop_assignments {ready : List Node} (h : ready ≠ []) :
    ∀ (pods : List Pod) (idx : Nat),
      (scheduleLoop pods ready idx).1.map Pod.nodeName
          = rrAssign ready idx (countEligible pods)
        ∧ (scheduleLoop pods ready idx).2 = idx + countEligible pods := by
  intro pods
  induction pods with
  | nil =>
    intro idx
    simp [scheduleLoop, countEligible, rrAssign]
  | cons pod rest ih =>
    intro idx
    by_cases hd : pod.deletionTimestamp.isSome = true
    · rw [countEligible_cons_skip hd] at *
      simpa [scheduleLoop, hd] using ih idx
    · have hlen : (ready.length == 0) = false := by
        cases ready with
        | nil => exact absurd rfl h
        | cons n ns => simp
      obtain ⟨ih1, ih2⟩ := ih (idx + 1)
      rw [countEligible_cons_keep hd]
      constructor
      · simp only [scheduleLoop, hd, hlen, if_false, Bool.false_eq_true, List.map_cons,
          rrAssign, ih1]
      · simp only [scheduleLoop, hd, hlen, if_false, Bool.false_eq_true, ih2]
        omega

/-- Every write issued by the loop originates in a listed pod whose
deletionTimestamp was nil, and differs from it only in `nodeName` and
`phase` (set to Scheduled). -/
lemma scheduleLoop_mem_writes :
    ∀ {pods : List Pod} {ready : List Node} {idx : Nat} {w : Pod},
      w ∈ (scheduleLoop pods ready idx).1 →
      ∃ q, q ∈ pods ∧ q.deletionTimestamp = none ∧
        ∃ nn, w = { q with nodeName := nn, phase := PodScheduled } := by
  intro pods
  induction pods with
  | nil => intro ready idx w hw; simp [scheduleLoop] at hw
  | cons pod rest ih =>
    intro ready idx w hw
    by_cases hd : pod.deletionTimestamp.isSome = true
    · simp only [scheduleLoop, hd, if_true] at hw
      obtain ⟨q, hq, hdt, nn, hwq⟩ := ih hw
      exact ⟨q, List.mem_cons_of_mem _ hq, hdt, nn, hwq⟩
    · by_cases hlen : (ready.length == 0) = true
      · simp only [scheduleLoop, hd, hlen, if_true, if_false, Bool.false_eq_true] at hw
        obtain ⟨q, hq, hdt, nn, hwq⟩ := ih hw
        exact ⟨q, List.mem_cons_of_mem _ hq, hdt, nn, hwq⟩
      · simp only [scheduleLoop, hd, hlen, if_false, Bool.false_eq_true,
          List.mem_cons] at hw
        rcases hw with hw | hw
        · refine ⟨pod, List.mem_cons_self _ _, ?_, _, hw⟩
          cases hval : pod.deletionTimestamp with
          | none => rfl
          | some t => rw [hval] at hd; simp at hd
        · obtain ⟨q, hq, hdt, nn, hwq⟩ := ih hw
          exact ⟨q, List.mem_cons_of_mem _ hq, hdt, nn, hwq⟩

lemma schedulePods_sub {P : List Pod} {R : List Node} {idx : Nat} {w : Pod}
    (hw : w ∈ (schedulePods P R idx).1) : w ∈ (scheduleLoop P R idx).1 := by
  unfold schedulePods at hw
  split_ifs at hw
  · simp at hw
  · simp at hw
  · exact hw

lemma mem_pendingFilter {q : Pod} {allPods : List Pod}
    (h : q ∈ filterPodsByPhase PodPending allPods) :
    q ∈ allPods ∧ q.phase = PodPending := by
  have hne : (PodPending == "") = false := by decide
  unfold filterPodsByPhase at h
  rw [hne] at h
  simp only [Bool.false_eq_true, if_false] at h
  have := List.mem_filter.mp h
  simpa using this

/-! ## Helper lemmas about the kubelet -/

/-- Any write the kubelet issues for a pod preserves the pod's identity, has
a non-terminal source phase, and targets only the agent's own node. -/
lemma syncPod_some {agent : String} {q w : Pod} (h : syncPod agent q = some w) :
    podKey w = podKey q ∧ ¬ isTerminal q.phase ∧ q.nodeName = agent := by
  unfold syncPod at h
  have hkey : ∀ ph : String, podKey { q with phase := ph } = podKey q := by
    intro ph; rfl
  split_ifs at h with h1 h2 h3 h4 h5 h6 h7 h8 h9 <;>
    first
      | exact Option.noConfusion h
      | skip
  · injection h with hw
    subst hw
    simp only [bne_iff_ne, Bool.and_eq_true, ne_eq] at h3
    simp only [beq_iff_eq] at h1
    refine ⟨hkey _, ?_, h1⟩
    rintro (ht | ht | ht) <;> simp [ht, PodSucceeded, PodFailed, PodDeleted] at h3
  · injection h with hw
    subst hw
    simp only [beq_iff_eq] at h1 h4
    refine ⟨hkey _, ?_, h1⟩
    rw [h4]
    decide
  · injection h with hw
    subst hw
    simp only [beq_iff_eq] at h1 h6
    refine ⟨hkey _, ?_, h1⟩
    rw [h6]
    decide
  · injection h with hw
    subst hw
    simp only [beq_iff_eq] at h1 h8
    refine ⟨hkey _, ?_, h1⟩
    rw [h8]
    decide

/-! ## Helper lemmas about node registration -/

lemma registerNode_fresh (s : InMemoryStore) (name addr : String)
    (hname : name ≠ "") (habs : getNode s name = none) :
    registerNode s name addr
      = .ok { s with nodes := s.nodes ++ [⟨name, addr, NodeReady⟩] } := by
  unfold registerNode createNodeHandler createNode
  have h1 : (name == "") = false := by simp [hname]
  have h2 : (NodeReady == "") = false := by decide
  simp [h1, h2, habs]

lemma registerNode_existing (s : InMemoryStore) (name addr : String) (old : Node)
    (hname : name ≠ "") (hex : getNode s name = some old) :
    registerNode s name addr
      = .ok { s with nodes :=
                s.nodes.map (fun m =>
                  if m.name == name then (⟨name, addr, NodeReady⟩ : Node) else m) } := by
  unfold registerNode createNodeHandler createNode updateNodeHandler updateNode
  have h1 : (name == "") = false := by simp [hname]
  have h2 : (NodeReady == "") = false := by decide
  simp [h1, h2, hex]

/-! ## The claims -/

/-- Claim C1, counterexample: the claimed optimistic-concurrency contract is
false. `updatePod` carries no expected version and checks none — with a pod
stored, a first update and then a second update issued from the same
originally observed state both return ok; no Conflict rejection exists
anywhere in the store. -/
theorem c1_counterexample : ¬ optimisticConcurrencyClaim := by
  intro h
  exact h ⟨[updTestPod], []⟩ ⟨[updA], []⟩ updA updB rfl rfl rfl ⟨[updB], []⟩ rfl

/-- Claim C1, amended: the store implements no optimistic concurrency. `Pod`
has no resourceVersion field and `updatePod` takes no expected version: after
any successful update of a pod, a second update of the same pod (e.g. one
conditioned on the same state the first writer observed) also succeeds, and
the stored pod afterwards is the second payload — last writer wins, never
Conflict. -/
theorem c1_amended (s s1 : InMemoryStore) (u1 u2 : Pod)
    (hns : u1.namespace' = u2.namespace') (hn : u1.name = u2.name)
    (h1 : updatePod s u1 = .ok s1) :
    ∃ s2, updatePod s1 u2 = .ok s2 ∧ getPod s2 u2.namespace' u2.name = some u2 := by
  have hg1 : getPod s1 u1.namespace' u1.name = some u1 := updatePod_ok_getPod h1
  rw [hns, hn] at hg1
  unfold updatePod
  rw [hg1]
  refine ⟨_, rfl, ?_⟩
  show (s1.pods.map _).find? _ = some u2
  exact find?_map_replace s1.pods u2 (by unfold getPod at hg1; rw [hg1]; rfl)

/-- Claim C1, witness: the amended theorem applied to the concrete
two-writer scenario. -/
theorem c1_witness :
    ∃ s2, updatePod ⟨[updA], []⟩ updB = .ok s2 ∧
      getPod s2 updB.namespace' updB.name = some updB :=
  c1_amended ⟨[updTestPod], []⟩ ⟨[updA], []⟩ updA updB rfl rfl rfl

/-- Claim C2, counterexample: the scheduler does not enforce the full
eligibility invariant. A pod with phase Pending, a nil deletionTimestamp but
a non-empty nodeName ("node-z") is assigned a node by the cycle — the code
checks only the Pending list filter and the deletionTimestamp, never that
nodeName is empty. -/
theorem c2_counterexample : ¬ schedulerEligibilityClaim := by
  intro h
  obtain ⟨q, hq, _hkey, _hph, hnn, _⟩ :=
    h [rebPod] [rNodeA] 0 { rebPod with nodeName := "node-a", phase := PodScheduled }
      (by decide)
  rw [List.mem_singleton] at hq
  subst hq
  exact absurd hnn (by decide)

/-- Claim C2, amended: in every scheduler cycle, every write issued
originates in an observed pod with phase Pending and nil deletionTimestamp
(nodeName is not checked); in particular, when observed pod keys are
distinct, a pod with a non-nil deletionTimestamp is skipped and never
receives a node assignment, even though its phase is Pending. -/
theorem c2_amended (allPods : List Pod) (allNodes : List Node) (idx : Nat) (w : Pod)
    (hw : w ∈ (schedulerCycle allPods allNodes idx).1) :
    (∃ q, q ∈ allPods ∧ podKey q = podKey w ∧ q.phase = PodPending ∧
      q.deletionTimestamp = none)
    ∧ ∀ p, p ∈ allPods → (allPods.map podKey).Nodup → p.deletionTimestamp.isSome →
        podKey w ≠ podKey p := by
  unfold schedulerCycle at hw
  obtain ⟨q, hqmem, hqdts, nn, rfl⟩ := scheduleLoop_mem_writes (schedulePods_sub hw)
  obtain ⟨hqa, hqph⟩ := mem_pendingFilter hqmem
  have hkeyq : podKey { q with nodeName := nn, phase := PodScheduled } = podKey q := rfl
  constructor
  · exact ⟨q, hqa, by rw [hkeyq], hqph, hqdts⟩
  · intro p hp hnd hdts hkey
    rw [hkeyq] at hkey
    have hqp : q = p := List.inj_on_of_nodup_map hnd hqa hp hkey
    subst hqp
    rw [hqdts] at hdts
    simp at hdts

/-- Claim C2, witness: the amended theorem applied to a concrete cycle. -/
theorem c2_witness :
    (∃ q, q ∈ [rebPod] ∧
      podKey q = podKey { rebPod with nodeName := "node-a", phase := PodScheduled } ∧
      q.phase = PodPending ∧ q.deletionTimestamp = none)
    ∧ ∀ p, p ∈ [rebPod] → ([rebPod].map podKey).Nodup → p.deletionTimestamp.isSome →
        podKey { rebPod with nodeName := "node-a", phase := PodScheduled } ≠ podKey p :=
  c2_amended [rebPod] [rNodeA] 0 _ (by decide)

/-- Claim C3: in every kubelet sync cycle, a pod of the agent's node with a
set deletionTimestamp and non-terminal phase has the write with its phase
transitioned to Deleted issued for it, and such a pod already in a terminal
phase (Succeeded, Failed or Deleted) receives no write at all. -/
theorem c3_thm (agent : String) (pods : List Pod) (p : Pod) (hp : p ∈ pods)
    (hn : p.nodeName = agent) (hd : p.deletionTimestamp.isSome) :
    (¬ isTerminal p.phase → { p with phase := PodDeleted } ∈ kubeletSync agent pods)
    ∧ (isTerminal p.phase → syncPod agent p = none) := by
  have h1 : (p.nodeName == agent) = true := by simp [hn]
  constructor
  · intro hnt
    apply List.mem_filterMap.mpr
    refine ⟨p, hp, ?_⟩
    unfold isTerminal at hnt
    push_neg at hnt
    simp [syncPod, h1, hd]
    exact ⟨hnt.2.1, hnt.2.2, hnt.1⟩
  · intro ht
    simp [syncPod, h1, hd]
    intro hns hnf
    rcases ht with ht | ht | ht
    · exact ht
    · exact absurd ht hns
    · exact absurd ht hnf

/-- Claim C3, witness: a Running pod on node n1 marked for deletion gets the
Deleted write. -/
theorem c3_witness :
    (¬ isTerminal termPod.phase →
      { termPod with phase := PodDeleted } ∈ kubeletSync "n1" [termPod])
    ∧ (isTerminal termPod.phase → syncPod "n1" termPod = none) :=
  c3_thm "n1" [termPod] termPod (by decide) rfl rfl

/-- Claim C4: evaluating the delete path at the failing input. Deleting a
stored Pending pod removes the record from the store outright — afterwards
the pod is gone (`getPod` returns none) and no record with a set
deletionTimestamp exists. This contradicts the documented soft-delete
contract (the README's "Delete a Pod (soft deletion)", the
`DeletionTimestamp` field comment "Added for soft delete", and the kubelet's
termination handling, which is unreachable through this path). -/
theorem c4_thm :
    deletePodHandler ⟨[delPod], []⟩ "default" "mypod" = .ok ⟨[], []⟩
    ∧ getPod ⟨[], []⟩ "default" "mypod" = none :=
  ⟨rfl, rfl⟩

/-- Claim C5, counterexample: rebinding does not fail closed. With a pod
bound to node1 in the store, a PUT through the pod-update handler whose body
differs only in nodeName (node2) is accepted, and the stored binding
changes. -/
theorem c5_counterexample : ¬ noRebindingClaim := by
  intro h
  exact h ⟨[bndPod], []⟩ bndPod bndBody rfl (by decide) (by decide)
    (⟨[bndBody], []⟩, bndBody) rfl

/-- Claim C5, amended: no rebinding check exists anywhere in the update
path. For any stored pod — in particular one whose nodeName is non-empty —
an update whose body carries a different nodeName succeeds, and the stored
pod afterwards is exactly the new body. -/
theorem c5_amended (s : InMemoryStore) (stored body : Pod)
    (hstored : getPod s body.namespace' body.name = some stored)
    (hbound : stored.nodeName ≠ "") (hdiff : body.nodeName ≠ stored.nodeName) :
    ∃ s', updatePodHandler s body.namespace' body.name body = .ok (s', body) ∧
      getPod s' body.namespace' body.name = some body := by
  have hsome : (s.pods.find?
      (fun q => q.namespace' == body.namespace' && q.name == body.name)).isSome := by
    unfold getPod at hstored
    rw [hstored]
    rfl
  unfold updatePodHandler updatePod
  have e1 : (body.name != body.name) = false := by simp
  have e2 : (body.namespace' != body.namespace') = false := by simp
  rw [e1, e2, hstored]
  simp only [Bool.false_eq_true, if_false]
  refine ⟨_, rfl, ?_⟩
  show (s.pods.map _).find? _ = some body
  exact find?_map_replace s.pods body hsome

/-- Claim C5, witness: the amended theorem at the concrete rebinding
scenario. -/
theorem c5_witness :
    ∃ s', updatePodHandler ⟨[bndPod], []⟩ bndBody.namespace' bndBody.name bndBody
        = .ok (s', bndBody) ∧
      getPod s' bndBody.namespace' bndBody.name = some bndBody :=
  c5_amended ⟨[bndPod], []⟩ bndPod bndBody rfl (by decide) (by decide)

/-- Claim C6: neither loop ever writes to a pod observed in a terminal phase
(Deleted, Succeeded or Failed). When the observed pod keys are distinct, no
write of a scheduler cycle and no write of a kubelet sync cycle targets the
key of a terminal-phase pod. -/
theorem c6_thm (allPods : List Pod) (allNodes : List Node) (idx : Nat) (agent : String)
    (p : Pod) (hnd : (allPods.map podKey).Nodup) (hp : p ∈ allPods)
    (hterm : isTerminal p.phase) :
    (∀ w ∈ (schedulerCycle allPods allNodes idx).1, podKey w ≠ podKey p)
    ∧ (∀ w ∈ kubeletSync agent allPods, podKey w ≠ podKey p) := by
  constructor
  · intro w hw hkey
    unfold schedulerCycle at hw
    obtain ⟨q, hqmem, hqdts, nn, rfl⟩ := scheduleLoop_mem_writes (schedulePods_sub hw)
    obtain ⟨hqa, hqph⟩ := mem_pendingFilter hqmem
    have hkeyq : podKey { q with nodeName := nn, phase := PodScheduled } = podKey q := rfl
    rw [hkeyq] at hkey
    have hqp : q = p := List.inj_on_of_nodup_map hnd hqa hp hkey
    subst hqp
    rw [hqph] at hterm
    exact absurd hterm (by decide)
  · intro w hw hkey
    obtain ⟨q, hq, hsync⟩ := List.mem_filterMap.mp hw
    obtain ⟨hkeyw, hnterm, _⟩ := syncPod_some hsync
    rw [hkeyw] at hkey
    have hqp : q = p := List.inj_on_of_nodup_map hnd hq hp hkey
    subst hqp
    exact hnterm hterm

/-- Claim C6, witness: a Succeeded pod is untouched by both loops in a
concrete cycle. -/
theorem c6_witness :
    (∀ w ∈ (schedulerCycle [donePod] [rNodeA] 0).1, podKey w ≠ podKey donePod)
    ∧ (∀ w ∈ kubeletSync "n1" [donePod], podKey w ≠ podKey donePod) :=
  c6_thm [donePod] [rNodeA] 0 "n1" donePod (by decide) (by decide) (by decide)

/-- Claim C7, counterexample: assignments do not follow the Ready-node list
ordered by node name. The node list arrives in the store's map order, which
the code never sorts: with ready nodes received as [b, a] and the cursor at
0, the first eligible pod is assigned "b", while round-robin over the
name-ordered list would assign "a". -/
theorem c7_counterexample : ¬ nameOrderedRoundRobinClaim := by
  intro h
  have := h [rrPod] [rrNodeB, rrNodeA] 0 (by decide) (by decide)
  exact absurd this (by decide)

/-- Claim C7, amended: in each cycle with pending pods and ready nodes,
eligible pods are assigned round-robin over the Ready-node list in the order
it was received (an unordered map snapshot, not sorted by name): consecutive
assignments use consecutive cursor positions modulo the list length, and the
persistent cursor advances by one per assignment. -/
theorem c7_amended (pendingPods : List Pod) (readyNodes : List Node) (idx : Nat)
    (hp : pendingPods ≠ []) (hr : readyNodes ≠ []) :
    (schedulePods pendingPods readyNodes idx).1.map Pod.nodeName
        = rrAssign readyNodes idx (countEligible pendingPods)
      ∧ (schedulePods pendingPods readyNodes idx).2 = idx + countEligible pendingPods := by
  have e1 : pendingPods.isEmpty = false := by
    cases pendingPods with
    | nil => exact absurd rfl hp
    | cons a l => rfl
  have e2 : readyNodes.isEmpty = false := by
    cases readyNodes with
    | nil => exact absurd rfl hr
    | cons a l => rfl
  have hred : schedulePods pendingPods readyNodes idx
      = scheduleLoop pendingPods readyNodes idx := by
    unfold schedulePods
    rw [e1, e2]
    simp
  rw [hred]
  exact scheduleLoop_assignments hr pendingPods idx

/-- Claim C7, witness: the amended theorem at the concrete [b, a] cycle. -/
theorem c7_witness :
    ((schedulePods [rrPod] [rrNodeB, rrNodeA] 0).1.map Pod.nodeName
        = rrAssign [rrNodeB, rrNodeA] 0 (countEligible [rrPod]))
      ∧ (schedulePods [rrPod] [rrNodeB, rrNodeA] 0).2 = 0 + countEligible [rrPod] :=
  c7_amended [rrPod] [rrNodeB, rrNodeA] 0 (by decide) (by decide)

/-- Claim C8: a pod carrying both the deletionTimestamp overlay and a
terminating-style phase tag (Terminating, or the legacy Deleting) is
processed exactly once, by the termination branch: the per-pod sync issues
the single write with phase Deleted — not the legacy Deleting branch's
Succeeded write — and a cycle observing the pod issues exactly that one
write. -/
theorem c8_thm (agent : String) (p : Pod) (hn : p.nodeName = agent)
    (hd : p.deletionTimestamp.isSome)
    (hph : p.phase = PodTerminating ∨ p.phase = PodDeleting) :
    syncPod agent p = some { p with phase := PodDeleted }
    ∧ kubeletSync agent [p] = [{ p with phase := PodDeleted }] := by
  have h1 : (p.nodeName == agent) = true := by simp [hn]
  have hs : syncPod agent p = some { p with phase := PodDeleted } := by
    simp [syncPod, h1, hd]
    rcases hph with h | h <;> rw [h] <;> decide
  exact ⟨hs, by simp [kubeletSync, hs]⟩

/-- Claim C8, witness: a Terminating pod with a set deletionTimestamp on
node n1. -/
theorem c8_witness :
    syncPod "n1" termPod2 = some { termPod2 with phase := PodDeleted }
    ∧ kubeletSync "n1" [termPod2] = [{ termPod2 with phase := PodDeleted }] :=
  c8_thm "n1" termPod2 rfl rfl (Or.inl rfl)

/-- Claim C9: node registration is idempotent. Starting from a store without
the node, registering twice with the same name (create, then create falling
back to update) leaves exactly one Node record with that name, whose state
is the second call's payload. -/
theorem c9_thm (s : InMemoryStore) (name addr1 addr2 : String)
    (hname : name ≠ "") (habs : getNode s name = none) :
    ∃ s1 s2, registerNode s name addr1 = .ok s1 ∧ registerNode s1 name addr2 = .ok s2 ∧
      (s2.nodes.filter (fun n => n.name == name)).length = 1 ∧
      getNode s2 name = some ⟨name, addr2, NodeReady⟩ := by
  have hnotin : ∀ x ∈ s.nodes, (x.name == name) = false := by
    intro x hx
    have := List.find?_eq_none.mp habs x hx
    simpa using this
  have h1 := registerNode_fresh s name addr1 hname habs
  set n1 : Node := ⟨name, addr1, NodeReady⟩ with hn1
  set n2 : Node := ⟨name, addr2, NodeReady⟩ with hn2
  set s1 : InMemoryStore := { s with nodes := s.nodes ++ [n1] } with hs1def
  have hs1 : getNode s1 name = some n1 := by
    unfold getNode at habs ⊢
    show (List.find? _ (s.nodes ++ [n1])) = some n1
    rw [List.find?_append, habs]
    simp [hn1]
  have h2 := registerNode_existing s1 name addr2 n1 hname hs1
  have hmap : s1.nodes.map (fun m => if m.name == name then n2 else m) = s.nodes ++ [n2] := by
    show (s.nodes ++ [n1]).map _ = s.nodes ++ [n2]
    rw [List.map_append]
    congr 1
    · calc s.nodes.map (fun m => if m.name == name then n2 else m)
          = s.nodes.map id := by
            apply List.map_congr_left
            intro a ha
            simp [hnotin a ha]
        _ = s.nodes := List.map_id _
    · simp [hn1, hn2]
  refine ⟨s1, _, h1, h2, ?_, ?_⟩
  · show (List.filter _ (s1.nodes.map (fun m => if m.name == name then n2 else m))).length = 1
    rw [hmap, List.filter_append]
    have hfe : s.nodes.filter (fun n => n.name == name) = [] :=
      List.filter_eq_nil_iff.mpr (by intro a ha; simp [hnotin a ha])
    rw [hfe]
    simp [hn2]
  · show List.find? _ (s1.nodes.map (fun m => if m.name == name then n2 else m)) = some n2
    rw [hmap, List.find?_append]
    unfold getNode at habs
    rw [habs]
    simp [hn2]

/-- Claim C9, witness: registering node n1 twice on an empty store. -/
theorem c9_witness :
    ∃ s1 s2, registerNode ⟨[], []⟩ "n1" "a1" = .ok s1 ∧
      registerNode s1 "n1" "a2" = .ok s2 ∧
      (s2.nodes.filter (fun n => n.name == "n1")).length = 1 ∧
      getNode s2 "n1" = some ⟨"n1", "a2", NodeReady⟩ :=
  c9_thm ⟨[], []⟩ "n1" "a1" "a2" (by decide) rfl

end K8sLite
